import Mathlib

/-!
Shallow embedding of `src/transform/__init__.py` (classes
`SpectrogramTransformer`, `FlattenTransformer`,
`SpectrogramStatsTransformer` / `StatsTransformer`).

Modelling conventions:
* numpy float values are modelled exactly as rationals (`ℚ`); float32
  rounding of stored values is not modelled, but the element *type* of an
  allocated array is tracked as a `DType` tag, mirroring the `dtype=`
  arguments at the allocation sites.
* a 2-D numpy array (a per-segment spectrogram grid) is a list of rows
  (`Grid`); numpy arrays are rectangular by construction, so theorems carry
  explicit rectangularity hypotheses where a shape is read off the data.
* the external primitives (`matplotlib.mlab.specgram`, `sklearn PCA` and
  floating `np.log10`) are parameters of the embedded `transform`
  functions; theorems assume only the contracts the spec gives them
  (ascending frequency axis, grid rows parallel to `freqs`).
* a raised Python exception is modelled as `Option.none` of the whole
  call: no partial result is observable.
-/

/-- Element-type tag of a numpy array (`np.dtype`). Only the tag is
tracked; values are kept exact. -/
inductive DType where
  | float32
  | float64
  | int32
  | int64
deriving DecidableEq, Repr

/-- A 2-D numpy array as a list of rows. For a spectrogram `Pxx`, a row is
one frequency bin across all time frames. -/
abbrev Grid := List (List ℚ)

/-- Python `int()` applied to a rational: truncation toward zero
(`Int.div` of the numerator by the positive denominator truncates toward
zero). -/
def pyInt (q : ℚ) : ℤ :=
  Int.tdiv q.num (q.den : ℤ)

/-- Model of `np.searchsorted(l, v, side='right')` on an ascending list: index of
the first element strictly greater than `v` (list length if none). numpy
uses binary search, which agrees with this linear scan on sorted input —
the spectrogram contract guarantees ascending frequencies. -/
def searchsortedRight (l : List ℚ) (v : ℚ) : ℕ :=
  match l with
  | [] => 0
  | x :: xs => if v < x then 0 else searchsortedRight xs v + 1

/-- Model of `np.searchsorted(l, v, side='left')` on an ascending list: index of
the first element greater than or equal to `v` (list length if none). -/
def searchsortedLeft (l : List ℚ) (v : ℚ) : ℕ :=
  match l with
  | [] => 0
  | x :: xs => if v ≤ x then 0 else searchsortedLeft xs v + 1

/-- Python slice `a[l:u]` with nonnegative bounds. -/
def pySlice (l u : ℕ) (a : List α) : List α :=
  (a.drop l).take (u - l)

/-- Configuration of `SpectrogramTransformer`, as stored by `__init__`. -/
structure SpecConfig where
  Fs : ℚ
  pad_to : Option ℕ
  NFFT : ℕ
  noverlap : ℚ
  clip_upper : ℚ
  clip_lower : ℚ
  dtype : DType
  whiten : Option ℕ
  log : Bool
  flatten : Bool
deriving DecidableEq, Repr

/-- Constructor `SpectrogramTransformer.__init__`: stores the arguments, except that a
`noverlap` value less than 1 is replaced by `int(NFFT * noverlap)`. -/
def SpectrogramTransformer.init (Fs : ℚ) (pad_to : Option ℕ) (NFFT : ℕ)
    (noverlap : ℚ) (clip_upper : ℚ) (clip_lower : ℚ) (dtype : DType)
    (whiten : Option ℕ) (log flatten : Bool) : SpecConfig :=
  { Fs := Fs
    pad_to := pad_to
    NFFT := NFFT
    noverlap := if noverlap < 1 then ((pyInt ((NFFT : ℚ) * noverlap)) : ℚ) else noverlap
    clip_upper := clip_upper
    clip_lower := clip_lower
    dtype := dtype
    whiten := whiten
    log := log
    flatten := flatten }

/-- The external `specgram` primitive: from a raw segment and the
configuration scalars `NFFT, Fs, pad_to, noverlap` it produces the
magnitude grid `s[0]` and the frequency axis `s[1]` (the time axis `s[2]`
is unused by the source). It is an opaque parameter of the embedding. -/
abbrev SpecgramFn := List ℚ → ℕ → ℚ → Option ℕ → ℚ → Grid × List ℚ

/-- The external `PCA(n_components=n, whiten=True).fit_transform`
primitive, an opaque parameter of the embedding. -/
abbrev PcaFn := ℕ → Grid → Grid

/-- Per-segment body of `SpectrogramTransformer.transform`, after the
`specgram` call: optional `10*log10`, optional upper clip (`Pxx[:n_fx]`
with a right-side search), optional lower clip (`Pxx[n_fx:]` with a
left-side search on the same unclipped axis `s[1]`), optional PCA
whitening. `log10f` models floating `np.log10`; the source multiplies its
result by `10.`. Python's `if self.whiten:` is falsy for both `None` and
`0`. -/
def SpectrogramTransformer.processSeg (cfg : SpecConfig) (log10f : ℚ → ℚ)
    (pcaf : PcaFn) (s : Grid × List ℚ) : Grid :=
  let Pxx0 := s.1
  let Pxx1 := if cfg.log then Pxx0.map (List.map (fun x => 10 * log10f x)) else Pxx0
  let Pxx2 := if cfg.clip_upper < 1000 then
      Pxx1.take (searchsortedRight s.2 cfg.clip_upper)
    else Pxx1
  let Pxx3 := if cfg.clip_lower > 0 then
      Pxx2.drop (searchsortedLeft s.2 cfg.clip_lower)
    else Pxx2
  match cfg.whiten with
  | none => Pxx3
  | some n => if n = 0 then Pxx3 else pcaf n Pxx3

/-- Output of `SpectrogramTransformer.transform`: a 2-D `[N, L]` batch
when `flatten` is set, else a 3-D `[N, bins, frames]` batch. -/
inductive SpecOut where
  | flat (rows : List (List ℚ))
  | grid (grids : List Grid)
deriving DecidableEq, Repr

/-- First dimension (`shape[0]`) of a `SpecOut`. -/
def SpecOut.nrows : SpecOut → ℕ
  | .flat rows => rows.length
  | .grid grids => grids.length

/-- All scalar entries of a `SpecOut`, in row-major order. -/
def SpecOut.entries : SpecOut → List ℚ
  | .flat rows => rows.flatten
  | .grid grids => (grids.map List.flatten).flatten

/-- The per-segment grids computed by the loop body of
`SpectrogramTransformer.transform` (before the flatten/write step). -/
def SpectrogramTransformer.transformGrids (cfg : SpecConfig) (log10f : ℚ → ℚ)
    (pcaf : PcaFn) (specf : SpecgramFn) (X : List (List ℚ)) : List Grid :=
  X.map (fun Xi =>
    SpectrogramTransformer.processSeg cfg log10f pcaf
      (specf Xi cfg.NFFT cfg.Fs cfg.pad_to cfg.noverlap))

/-- Operation `SpectrogramTransformer.transform`: each segment's processed grid is
written into row `i` of a batch buffer allocated from the first segment's
shape; with `flatten` each grid is flattened row-major first. The buffer
write is modelled as collecting the per-segment results; a batch whose
segments produce differing shapes is a caller error with undefined
behavior per the spec, and the claims quantify over shape-uniform
batches. -/
def SpectrogramTransformer.transform (cfg : SpecConfig) (log10f : ℚ → ℚ)
    (pcaf : PcaFn) (specf : SpecgramFn) (X : List (List ℚ)) : SpecOut :=
  if cfg.flatten then
    .flat ((SpectrogramTransformer.transformGrids cfg log10f pcaf specf X).map
      List.flatten)
  else
    .grid (SpectrogramTransformer.transformGrids cfg log10f pcaf specf X)

/-- Column count (`shape[1]`) of a 2-D grid: the length of its first row
(meaningful for rectangular numpy data). -/
def gridCols (g : Grid) : ℕ :=
  (g.headD []).length

/-- A 3-D numpy batch: element-type tag plus the nested data
`[N, dim0, dim1]`. -/
structure Batch3 where
  dtype : DType
  data : List Grid
deriving DecidableEq, Repr

/-- A 2-D numpy batch: element-type tag plus rows. -/
structure Mat2 where
  dtype : DType
  rows : List (List ℚ)
deriving DecidableEq, Repr

/-- Shape component `X.shape[1]` of a 3-D nested-list batch (length of the first
matrix; meaningful for nonempty rectangular data). -/
def shape1 (d : List Grid) : ℕ :=
  match d with
  | [] => 0
  | m :: _ => m.length

/-- Shape component `X.shape[2]` of a 3-D nested-list batch (length of the first row of
the first matrix; meaningful for nonempty rectangular data). -/
def shape2 (d : List Grid) : ℕ :=
  match d with
  | [] => 0
  | [] :: _ => 0
  | (r :: _) :: _ => r.length

/-- Operation `FlattenTransformer.transform`: allocates a float32 buffer
`[N, shape1*shape2]`, writes each segment's row-major flattening into its
row, then multiplies the buffer in place by `scale` (in-place `*=` keeps
the buffer's dtype). Rectangularity of the input batch (a numpy
invariant) makes each flattening fit its row. -/
def FlattenTransformer.transform (scale : ℚ) (X : Batch3) : Mat2 :=
  { dtype := DType.float32
    rows := X.data.map (fun Xi => Xi.flatten.map (fun x => x * scale)) }

/-- Model of `np.diff` of a 1-D array: consecutive differences, length one less
than the input (empty on inputs of length at most 1). -/
def npDiff (l : List ℚ) : List ℚ :=
  match l with
  | [] => []
  | [_] => []
  | x :: y :: rest => (y - x) :: npDiff (y :: rest)

/-- Insert into an ascending list, keeping it ascending. -/
def insertAsc (x : ℚ) : List ℚ → List ℚ
  | [] => [x]
  | y :: ys => if x ≤ y then x :: y :: ys else y :: insertAsc x ys

/-- Ascending sort (insertion sort). `np.sort` also produces the unique
ascending rearrangement, so the two agree on every input. -/
def sortAsc : List ℚ → List ℚ
  | [] => []
  | x :: xs => insertAsc x (sortAsc xs)

/-- Model of `np.min` of a 1-D array. numpy rejects an empty reduction; the `[]`
case returns a junk value and is outside every theorem's hypotheses. -/
def npMin (l : List ℚ) : ℚ :=
  match l with
  | [] => 0
  | x :: xs => xs.foldl min x

/-- Model of `np.max` of a 1-D array (junk value on `[]`, as for `npMin`). -/
def npMax (l : List ℚ) : ℚ :=
  match l with
  | [] => 0
  | x :: xs => xs.foldl max x

/-- Model of `np.mean` of a 1-D array: sum divided by length. -/
def npMean (l : List ℚ) : ℚ :=
  l.sum / (l.length : ℚ)

/-- Model of `np.var` of a 1-D array: population variance (numpy default
`ddof=0`), the mean of squared deviations from the mean. -/
def npVar (l : List ℚ) : ℚ :=
  (l.map (fun x => (x - npMean l) ^ 2)).sum / (l.length : ℚ)

/-- Model of `np.median` of a 1-D array: middle element of the ascending
rearrangement for odd length, average of the two middle elements for even
length. -/
def npMedian (l : List ℚ) : ℚ :=
  let s := sortAsc l
  let n := s.length
  if n % 2 = 1 then s.getD (n / 2) 0
  else (s.getD (n / 2 - 1) 0 + s.getD (n / 2) 0) / 2

/-- The fixed statistic list `self.stats` of
`SpectrogramStatsTransformer.__init__`: `[np.min, np.max, np.mean,
np.var, np.median]`, in source order. -/
def statsList : List (List ℚ → ℚ) :=
  [npMin, npMax, npMean, npVar, npMedian]

/-- Reduction `stat(X_i, axis=a)` on a 2-D `X_i` for `a` in 0 or 1: `axis=1`
reduces each row; `axis=0` reduces each column. -/
def statAxis (axis : ℕ) (stat : List ℚ → ℚ) (m : Grid) : List ℚ :=
  if axis = 1 then m.map stat else m.transpose.map stat

/-- Slice assignment `out[i, a : a+w] = vals` of a 1-D `vals` into a slice
of width `w`: exact-width assignment, or numpy broadcasting of a length-1
array across the slice (including a width-0 slice); any other length
mismatch raises `ValueError`. Returns the written block. -/
def writeBlock (w : ℕ) (vals : List ℚ) : Option (List ℚ) :=
  if vals.length = w then some vals
  else if vals.length = 1 then some (List.replicate w (vals.headD 0))
  else none

/-- Sequence a list of optional values; `none` (a raised exception)
anywhere aborts the whole computation. -/
def seqOpt : List (Option α) → Option (List α)
  | [] => some []
  | o :: os =>
    match o with
    | none => none
    | some a =>
      match seqOpt os with
      | none => none
      | some rest => some (a :: rest)

/-- Per-statistic block of `SpectrogramStatsTransformer.transform`: the
reduced vector `vals`, with the first difference appended when `delta` is
set, and the difference of that `delta` local appended when `delta_delta`
is set — reading `delta` when it was never assigned (because `delta` is
off) is a `NameError`. The block is then written into a width-`w` slice
of the output row. -/
def statsBlock (axis : ℕ) (delta delta_delta : Bool) (w : ℕ)
    (stat : List ℚ → ℚ) (Xi : Grid) : Option (List ℚ) :=
  let vals0 := statAxis axis stat Xi
  let deltaVec : Option (List ℚ) := if delta then some (npDiff vals0) else none
  let vals1 := match deltaVec with
    | some d => vals0 ++ d
    | none => vals0
  let vals2 : Option (List ℚ) :=
    if delta_delta then
      match deltaVec with
      | none => none
      | some d => some (vals1 ++ npDiff d)
    else some vals1
  match vals2 with
  | none => none
  | some v => writeBlock w v

/-- Effective per-statistic width `n_bins` of
`SpectrogramStatsTransformer.transform`, as an integer (Python ints are
unbounded and the computation can go negative): the base count is read
from `X.shape[2]` (`axis==0`) or `X.shape[1]` (`axis==1`) — any other
axis leaves `n_bins` unassigned, a `NameError`; `delta` adds
`n_delta = n_bins - 1`; `delta_delta` adds `n_delta - 1`, reading the
local `n_delta`, which is unassigned unless `delta` is set
(`NameError`). -/
def statsNBins (axis : ℕ) (delta delta_delta : Bool) (d : List Grid) :
    Option ℤ :=
  let n_bins0 : Option ℤ :=
    if axis = 0 then some (shape2 d)
    else if axis = 1 then some (shape1 d)
    else none
  match n_bins0 with
  | none => none
  | some nb0 =>
    let n_delta : Option ℤ := if delta then some (nb0 - 1) else none
    let nb1 : ℤ := if delta then nb0 + (nb0 - 1) else nb0
    if delta_delta then
      match n_delta with
      | none => none
      | some nd => some (nb1 + (nd - 1))
    else some nb1

/-- One output row of `SpectrogramStatsTransformer.transform`: the five
statistic blocks, each written into its width-`w` slice
`out[i, n_bins * j : n_bins * (j + 1)]`, concatenated. -/
def statsRow (axis : ℕ) (delta delta_delta : Bool) (w : ℕ) (Xi : Grid) :
    Option (List ℚ) :=
  (seqOpt (statsList.map
    (fun stat => statsBlock axis delta delta_delta w stat Xi))).map
    List.flatten

/-- Operation `SpectrogramStatsTransformer.transform` on a 3-D batch: computes the
effective width (`statsNBins`), allocates the output buffer
`np.empty((N, n_stats * n_bins), dtype=np.float32)` — which rejects a
negative width — and fills row `i` from segment `i` (`statsRow`). Any
raised error yields `none`: no partial result. -/
def SpectrogramStatsTransformer.transform (axis : ℕ) (delta delta_delta : Bool)
    (X : Batch3) : Option Mat2 :=
  match statsNBins axis delta delta_delta X.data with
  | none => none
  | some nb =>
    if (statsList.length : ℤ) * nb < 0 then none
    else
      (seqOpt (X.data.map (statsRow axis delta delta_delta nb.toNat))).map
        (fun rows => ⟨DType.float32, rows⟩)

/-- Alias from the source: `StatsTransformer = SpectrogramStatsTransformer`. -/
def StatsTransformer.transform (axis : ℕ) (delta delta_delta : Bool)
    (X : Batch3) : Option Mat2 :=
  SpectrogramStatsTransformer.transform axis delta delta_delta X

/-! ## Helper lemmas -/

theorem searchsortedRight_le_length (l : List ℚ) (v : ℚ) :
    searchsortedRight l v ≤ l.length := by
  induction l with
  | nil => simp [searchsortedRight]
  | cons x xs ih =>
    simp only [searchsortedRight, List.length_cons]
    split
    · omega
    · omega

theorem lt_searchsortedRight_iff (l : List ℚ) (v : ℚ)
    (hs : List.Sorted (· ≤ ·) l) (j : ℕ) (hj : j < l.length) :
    j < searchsortedRight l v ↔ l.getD j 0 ≤ v := by
  induction l generalizing j with
  | nil => simp at hj
  | cons x xs ih =>
    rcases List.sorted_cons.mp hs with ⟨hx, hxs⟩
    simp only [searchsortedRight]
    split
    · rename_i hvx
      constructor
      · omega
      · intro hle
        exfalso
        cases j with
        | zero => simp at hle; exact absurd hle (not_le.mpr hvx)
        | succ k =>
          simp only [List.getD_cons_succ] at hle
          have hk : k < xs.length := by simpa using hj
          have : x ≤ xs.getD k 0 := by
            rw [List.getD_eq_getElem _ _ hk]
            exact hx _ (List.getElem_mem hk)
          exact absurd (le_trans this hle) (not_le.mpr hvx)
    · rename_i hvx
      cases j with
      | zero => simpa using not_lt.mp hvx
      | succ k =>
        have hk : k < xs.length := by simpa using hj
        simpa using ih hxs k hk

/-! ## C8: fractional noverlap conversion at construction time -/

/-- C8: a `noverlap` constructor argument strictly less than 1 is stored
as `int(NFFT * noverlap)`, an integer sample count (denominator 1); any
`noverlap` greater than or equal to 1 is stored unchanged. -/
theorem init_noverlap_conversion (Fs : ℚ) (pad_to : Option ℕ) (NFFT : ℕ)
    (noverlap : ℚ) (cu cl : ℚ) (dt : DType) (wh : Option ℕ) (lg fl : Bool) :
    (noverlap < 1 →
      (SpectrogramTransformer.init Fs pad_to NFFT noverlap cu cl dt wh lg fl).noverlap
          = ((pyInt ((NFFT : ℚ) * noverlap)) : ℚ)
        ∧ ((SpectrogramTransformer.init Fs pad_to NFFT noverlap cu cl dt wh lg
            fl).noverlap).den = 1)
    ∧ (1 ≤ noverlap →
      (SpectrogramTransformer.init Fs pad_to NFFT noverlap cu cl dt wh lg fl).noverlap
        = noverlap) := by
  constructor
  · intro h
    constructor
    · simp only [SpectrogramTransformer.init, if_pos h]
    · simp only [SpectrogramTransformer.init, if_pos h]
      exact Rat.den_intCast _
  · intro h
    simp only [SpectrogramTransformer.init, if_neg (not_lt.mpr h)]

unseal Rat.mul Rat.inv Rat.add Rat.sub in
/-- Witness for C8 at `NFFT = 256`, `noverlap = 1/2` (stored as 128) and
at `noverlap = 200` (stored unchanged). -/
theorem init_noverlap_conversion_witness :
    (SpectrogramTransformer.init 2000 none 256 (1/2) 1000 0 DType.float32 none
      true true).noverlap = 128
    ∧ (SpectrogramTransformer.init 2000 none 256 200 1000 0 DType.float32 none
      true true).noverlap = 200 := by
  constructor
  · have h := (init_noverlap_conversion 2000 none 256 (1/2) 1000 0 DType.float32
      none true true).1 (by decide)
    rw [h.1]
    decide
  · exact (init_noverlap_conversion 2000 none 256 200 1000 0 DType.float32
      none true true).2 (by decide)

/-! ## C9: delta_delta without delta always raises -/

/-- The effective-width computation fails when `delta_delta` is on and
`delta` is off, for every axis. -/
theorem statsNBins_none_without_delta (axis : ℕ) (d : List Grid) :
    statsNBins axis false true d = none := by
  by_cases h0 : axis = 0 <;> by_cases h1 : axis = 1 <;>
    simp [statsNBins, h0, h1]

/-- C9: with `delta_delta=True` and `delta=False` every `transform` call
fails: the effective-width computation reads the local `n_delta`, which is
only assigned when `delta` is on (`NameError`), so `delta_delta` is usable
only together with `delta`. -/
theorem delta_delta_without_delta_always_fails (axis : ℕ) (X : Batch3) :
    SpectrogramStatsTransformer.transform axis false true X = none := by
  simp [SpectrogramStatsTransformer.transform, statsNBins_none_without_delta]

/-! ## C10: output dtype of FlattenTransformer and StatsTransformer -/

/-- C10: `FlattenTransformer.transform` always returns a float32-tagged
array, and every successful `StatsTransformer.transform` result is
float32-tagged, whatever the input batch's element type: both output
buffers are allocated with `dtype=np.float32`, and the in-place `*=` of
the flatten scale keeps the buffer's dtype. -/
theorem output_dtype_always_float32 (scale : ℚ) (X : Batch3) (axis : ℕ)
    (delta delta_delta : Bool) (Y : Batch3) (out : Mat2)
    (h : SpectrogramStatsTransformer.transform axis delta delta_delta Y = some out) :
    (FlattenTransformer.transform scale X).dtype = DType.float32
    ∧ out.dtype = DType.float32 := by
  refine ⟨rfl, ?_⟩
  unfold SpectrogramStatsTransformer.transform at h
  split at h
  · exact absurd h (by simp)
  · split at h
    · exact absurd h (by simp)
    · rcases Option.map_eq_some'.mp h with ⟨rows, _, hout⟩
      rw [hout.symm]

unseal Rat.mul Rat.inv Rat.add Rat.sub in
/-- Witness for C10: an int64 input batch to the flatten transform and a
float64 input batch to the stats transform, both yielding float32. -/
theorem output_dtype_always_float32_witness :
    (FlattenTransformer.transform 2 ⟨DType.int64, [[[1, 2]]]⟩).dtype = DType.float32
    ∧ (Mat2.mk DType.float32 [[1, 2, 3/2, 1/4, 3/2]]).dtype = DType.float32 :=
  output_dtype_always_float32 2 ⟨DType.int64, [[[1, 2]]]⟩ 1 false false
    ⟨DType.float64, [[[1, 2]]]⟩ ⟨DType.float32, [[1, 2, 3/2, 1/4, 3/2]]⟩ (by decide)

/-! ## C2: lower clip after upper clip slices the original grid -/

/-- C2: with both clips enabled, `transform` computes the lower-clip
index by a left-side search on the original (unclipped, ascending)
frequency axis and drops that many leading rows from the already
upper-clipped grid, so each segment's result is the original (possibly
log-scaled) grid sliced to rows
`[searchsorted(freqs, clip_lower, left) : searchsorted(freqs, clip_upper,
right)]`. -/
theorem clips_slice_original_grid (cfg : SpecConfig) (log10f : ℚ → ℚ)
    (pcaf : PcaFn) (specf : SpecgramFn) (X : List (List ℚ))
    (hu : cfg.clip_upper < 1000) (hl : 0 < cfg.clip_lower)
    (hw : cfg.whiten = none) (hf : cfg.flatten = false)
    (hs : ∀ Xi ∈ X, List.Sorted (· ≤ ·)
      (specf Xi cfg.NFFT cfg.Fs cfg.pad_to cfg.noverlap).2) :
    SpectrogramTransformer.transform cfg log10f pcaf specf X =
      SpecOut.grid (X.map (fun Xi =>
        let s := specf Xi cfg.NFFT cfg.Fs cfg.pad_to cfg.noverlap
        let P := if cfg.log then s.1.map (List.map (fun x => 10 * log10f x))
          else s.1
        pySlice (searchsortedLeft s.2 cfg.clip_lower)
          (searchsortedRight s.2 cfg.clip_upper) P)) := by
  clear hs
  unfold SpectrogramTransformer.transform
  rw [if_neg (by simp [hf])]
  unfold SpectrogramTransformer.transformGrids
  congr 1
  apply List.map_congr_left
  intro Xi _
  unfold SpectrogramTransformer.processSeg
  simp only [hw, if_pos hu, if_pos hl]
  rw [List.drop_take]
  rfl

unseal Rat.mul Rat.inv Rat.add Rat.sub in
/-- Witness for C2: `clip_lower = 100`, `clip_upper = 500` on a
four-bin spectrogram with frequency axis `[0, 250, 500, 750]` keeps rows
1 and 2 (slice `[1:3]`). -/
theorem clips_slice_original_grid_witness :
    SpectrogramTransformer.transform
      ⟨2000, none, 256, 200, 500, 100, DType.float32, none, false, false⟩
      (fun x => x) (fun _ g => g)
      (fun _ _ _ _ _ => ([[1], [2], [3], [4]], [0, 250, 500, 750])) [[0]]
      = SpecOut.grid [[[2], [3]]] := by
  rw [clips_slice_original_grid
    ⟨2000, none, 256, 200, 500, 100, DType.float32, none, false, false⟩
    (fun x => x) (fun _ g => g)
    (fun _ _ _ _ _ => ([[1], [2], [3], [4]], [0, 250, 500, 750])) [[0]]
    (by decide) (by decide) rfl rfl
    (by
      intro Xi hXi
      show List.Sorted (· ≤ ·) ([0, 250, 500, 750] : List ℚ)
      decide)]
  decide

/-! ## C1 (corrected): upper clip retains frequencies at most c -/

/-- C1 counterexample: with `clip_upper = 500` on the ascending frequency
axis `[0, 250, 500, 750]`, `transform` retains three bins — including the
bin whose frequency is exactly `500` — whereas the bins with frequency
strictly less than `500` are only the first two, so "the retained bins
are exactly those whose frequency is strictly less than `c`" is false. -/
theorem clip_upper_strictly_less_counterexample :
    SpectrogramTransformer.transform
      ⟨2000, none, 256, 200, 500, 0, DType.float32, none, false, false⟩
      (fun x => x) (fun _ g => g)
      (fun _ _ _ _ _ => ([[1], [2], [3], [4]], [0, 250, 500, 750])) [[0]]
      = SpecOut.grid [[[1], [2], [3]]]
    ∧ ((([[1], [2], [3], [4]] : Grid).zip ([0, 250, 500, 750] : List ℚ)).filter
        (fun p => decide (p.2 < 500))).map Prod.fst ≠ [[1], [2], [3]] := by
  constructor
  · decide
  · decide

/-- C1 (amended): with `clip_upper = c < 1000` and the lower clip
disabled, each segment keeps a prefix of its (possibly log-scaled)
spectrogram rows — never more bins than the unclipped count — and on an
ascending frequency axis the retained bin indices are exactly those whose
frequency is less than or equal to `c` (the `side='right'` search keeps a
bin whose frequency equals `c` exactly, which is the one change forced on
the claim's "strictly less than"). -/
theorem clip_upper_retains_freqs_le (cfg : SpecConfig) (log10f : ℚ → ℚ)
    (pcaf : PcaFn) (specf : SpecgramFn) (X : List (List ℚ))
    (hu : cfg.clip_upper < 1000) (hl : ¬ 0 < cfg.clip_lower)
    (hw : cfg.whiten = none) (hf : cfg.flatten = false)
    (hs : ∀ Xi ∈ X, List.Sorted (· ≤ ·)
      (specf Xi cfg.NFFT cfg.Fs cfg.pad_to cfg.noverlap).2) :
    ∃ grids, SpectrogramTransformer.transform cfg log10f pcaf specf X
        = SpecOut.grid grids
      ∧ ∀ i, i < X.length →
        (grids.getD i [] =
          (if cfg.log then
            (specf (X.getD i []) cfg.NFFT cfg.Fs cfg.pad_to cfg.noverlap).1.map
              (List.map (fun x => 10 * log10f x))
          else (specf (X.getD i []) cfg.NFFT cfg.Fs cfg.pad_to cfg.noverlap).1).take
            (searchsortedRight
              (specf (X.getD i []) cfg.NFFT cfg.Fs cfg.pad_to cfg.noverlap).2
              cfg.clip_upper))
        ∧ (grids.getD i []).length ≤
            (specf (X.getD i []) cfg.NFFT cfg.Fs cfg.pad_to cfg.noverlap).1.length
        ∧ ∀ j, j < (specf (X.getD i []) cfg.NFFT cfg.Fs cfg.pad_to cfg.noverlap).2.length →
            (j < searchsortedRight
                (specf (X.getD i []) cfg.NFFT cfg.Fs cfg.pad_to cfg.noverlap).2
                cfg.clip_upper
              ↔ (specf (X.getD i []) cfg.NFFT cfg.Fs cfg.pad_to
                  cfg.noverlap).2.getD j 0 ≤ cfg.clip_upper) := by
  refine ⟨SpectrogramTransformer.transformGrids cfg log10f pcaf specf X, ?_, ?_⟩
  · unfold SpectrogramTransformer.transform
    rw [if_neg (by simp [hf])]
  · intro i hi
    have hmem : X.getD i [] ∈ X := by
      rw [List.getD_eq_getElem _ _ hi]
      exact List.getElem_mem hi
    have hgrid : (SpectrogramTransformer.transformGrids cfg log10f pcaf specf
        X).getD i [] =
        SpectrogramTransformer.processSeg cfg log10f pcaf
          (specf (X.getD i []) cfg.NFFT cfg.Fs cfg.pad_to cfg.noverlap) := by
      unfold SpectrogramTransformer.transformGrids
      rw [List.getD_eq_getElem _ _ (by simpa using hi), List.getElem_map,
        List.getD_eq_getElem _ _ hi]
    have hproc : SpectrogramTransformer.processSeg cfg log10f pcaf
        (specf (X.getD i []) cfg.NFFT cfg.Fs cfg.pad_to cfg.noverlap) =
        (if cfg.log then
          (specf (X.getD i []) cfg.NFFT cfg.Fs cfg.pad_to cfg.noverlap).1.map
            (List.map (fun x => 10 * log10f x))
        else (specf (X.getD i []) cfg.NFFT cfg.Fs cfg.pad_to cfg.noverlap).1).take
          (searchsortedRight
            (specf (X.getD i []) cfg.NFFT cfg.Fs cfg.pad_to cfg.noverlap).2
            cfg.clip_upper) := by
      unfold SpectrogramTransformer.processSeg
      simp only [hw, if_pos hu, if_neg hl]
    refine ⟨by rw [hgrid, hproc], ?_, ?_⟩
    · rw [hgrid, hproc]
      calc ((if cfg.log then
              (specf (X.getD i []) cfg.NFFT cfg.Fs cfg.pad_to cfg.noverlap).1.map
                (List.map (fun x => 10 * log10f x))
            else (specf (X.getD i []) cfg.NFFT cfg.Fs cfg.pad_to
              cfg.noverlap).1).take
              (searchsortedRight
                (specf (X.getD i []) cfg.NFFT cfg.Fs cfg.pad_to cfg.noverlap).2
                cfg.clip_upper)).length
          ≤ (if cfg.log then
              (specf (X.getD i []) cfg.NFFT cfg.Fs cfg.pad_to cfg.noverlap).1.map
                (List.map (fun x => 10 * log10f x))
            else (specf (X.getD i []) cfg.NFFT cfg.Fs cfg.pad_to
              cfg.noverlap).1).length := by
            rw [List.length_take]
            exact min_le_right _ _
        _ = (specf (X.getD i []) cfg.NFFT cfg.Fs cfg.pad_to
              cfg.noverlap).1.length := by
            split
            · exact List.length_map _ _
            · rfl
    · intro j hj
      exact lt_searchsortedRight_iff _ _ (hs _ hmem) j hj

unseal Rat.mul Rat.inv Rat.add Rat.sub in
/-- Witness for the amended C1 at `clip_upper = 500`, frequency axis
`[0, 250, 500, 750]`: three bins (frequencies `0, 250, 500`, all at most
`500`) are retained out of four. -/
theorem clip_upper_retains_freqs_le_witness :
    ∃ grids, SpectrogramTransformer.transform
        ⟨2000, none, 256, 200, 500, 0, DType.float32, none, false, false⟩
        (fun x => x) (fun _ g => g)
        (fun _ _ _ _ _ => ([[1], [2], [3], [4]], [0, 250, 500, 750])) [[0]]
        = SpecOut.grid grids
      ∧ ∀ i, i < ([[0]] : List (List ℚ)).length →
        (grids.getD i [] = ([[1], [2], [3], [4]] : Grid).take
            (searchsortedRight ([0, 250, 500, 750] : List ℚ) 500))
        ∧ (grids.getD i []).length ≤ 4
        ∧ ∀ j, j < 4 →
            (j < searchsortedRight ([0, 250, 500, 750] : List ℚ) 500
              ↔ ([0, 250, 500, 750] : List ℚ).getD j 0 ≤ 500) := by
  have h := clip_upper_retains_freqs_le
    ⟨2000, none, 256, 200, 500, 0, DType.float32, none, false, false⟩
    (fun x => x) (fun _ g => g)
    (fun _ _ _ _ _ => ([[1], [2], [3], [4]], [0, 250, 500, 750])) [[0]]
    (by decide) (by decide) rfl rfl
    (by
      intro Xi hXi
      show List.Sorted (· ≤ ·) ([0, 250, 500, 750] : List ℚ)
      decide)
  exact h

/-! ## Helper lemmas for the stats transformer -/

theorem seqOpt_map_some {α β : Type} (f : α → Option β) (g : α → β)
    (l : List α) (h : ∀ a ∈ l, f a = some (g a)) :
    seqOpt (l.map f) = some (l.map g) := by
  induction l with
  | nil => rfl
  | cons x xs ih =>
    have hx := h x (by simp)
    have hxs := ih (fun a ha => h a (by simp [ha]))
    simp only [List.map_cons, seqOpt, hx, hxs]

theorem npDiff_length (l : List ℚ) : (npDiff l).length = l.length - 1 := by
  induction l with
  | nil => rfl
  | cons x xs ih =>
    cases xs with
    | nil => rfl
    | cons y rest =>
      simp only [npDiff, List.length_cons] at ih ⊢
      omega

theorem length_flatten_const (Bs : List (List ℚ)) (w : ℕ)
    (h : ∀ B ∈ Bs, B.length = w) : Bs.flatten.length = Bs.length * w := by
  induction Bs with
  | nil => simp
  | cons B Bs ih =>
    simp only [List.flatten_cons, List.length_append, List.length_cons,
      h B (by simp), ih (fun B hB => h B (by simp [hB]))]
    ring

theorem pySlice_flatten_blocks (n : ℕ) (Bs : List (List ℚ))
    (h : ∀ B ∈ Bs, B.length = n) :
    ∀ j, j < Bs.length →
      pySlice (n * j) (n * (j + 1)) Bs.flatten = Bs.getD j [] := by
  induction Bs with
  | nil => intro j hj; simp at hj
  | cons B Bs ih =>
    intro j hj
    cases j with
    | zero =>
      simp only [List.flatten_cons, pySlice, Nat.mul_zero, List.drop_zero,
        List.getD_cons_zero]
      rw [(by omega : n * (0 + 1) - 0 = n)]
      exact List.take_left' (h B (by simp))
    | succ k =>
      have hB : B.length = n := h B (by simp)
      have hrest := ih (fun B hBm => h B (by simp [hBm])) k (by simpa using hj)
      simp only [List.flatten_cons, pySlice, List.getD_cons_succ]
      have hdrop : (B ++ Bs.flatten).drop (n * (k + 1)) =
          Bs.flatten.drop (n * k) := by
        have : n * (k + 1) = n + n * k := by ring
        rw [this, ← List.drop_drop, List.drop_left' hB]
      rw [hdrop]
      have e1 : n * (k + 1 + 1) - n * (k + 1) = n := by
        have a1 : n * (k + 1 + 1) = n * (k + 1) + n := by ring
        omega
      have e2 : n * (k + 1) - n * k = n := by
        have a2 : n * (k + 1) = n * k + n := by ring
        omega
      rw [e1]
      rw [pySlice, e2] at hrest
      exact hrest

theorem shape1_eq (d : List Grid) (n : ℕ) (hne : d ≠ [])
    (hn : ∀ m ∈ d, m.length = n) : shape1 d = n := by
  cases d with
  | nil => exact absurd rfl hne
  | cons m ms => exact hn m (by simp)

theorem getD_map_of_lt {α β : Type} (f : α → β) (l : List α) (i : ℕ)
    (hi : i < l.length) (dA : α) (dB : β) :
    (l.map f).getD i dB = f (l.getD i dA) := by
  rw [List.getD_eq_getElem _ _ (by simpa using hi), List.getElem_map,
    List.getD_eq_getElem _ _ hi]

theorem getD_mem_of_lt {α : Type} (l : List α) (i : ℕ) (hi : i < l.length)
    (d : α) : l.getD i d ∈ l := by
  rw [List.getD_eq_getElem _ _ hi]
  exact List.getElem_mem hi

theorem statsList_length_eq : statsList.length = 5 := rfl

theorem statsAlloc_nonneg (z : ℤ) (hz : 0 ≤ z) :
    ¬ ((statsList.length : ℤ) * z < 0) := by
  rw [statsList_length_eq]
  omega

theorem statsBlock_no_delta (stat : List ℚ → ℚ) (Xi : Grid) (n : ℕ)
    (h : Xi.length = n) :
    statsBlock 1 false false n stat Xi = some (Xi.map stat) := by
  unfold statsBlock statAxis writeBlock
  simp [h]

theorem statsRow_no_delta (Xi : Grid) (n : ℕ) (h : Xi.length = n) :
    statsRow 1 false false n Xi =
      some ([Xi.map npMin, Xi.map npMax, Xi.map npMean, Xi.map npVar,
        Xi.map npMedian].flatten) := by
  unfold statsRow
  rw [seqOpt_map_some _ (fun stat => Xi.map stat) statsList
    (fun stat _ => statsBlock_no_delta stat Xi n h)]
  rfl

/-! ## C3: fixed statistic order and block layout -/

/-- C3: with `axis=1` and no deltas, output row `i` is the concatenation
of the five per-bin statistic vectors in the fixed order minimum,
maximum, mean, variance, median, each reducing `X[i]` along axis 1, and
statistic `j` occupies exactly the column block
`[n_bins * j, n_bins * (j + 1))`. -/
theorem stats_ordering_five_blocks (X : Batch3) (n : ℕ)
    (hne : X.data ≠ [])
    (hbins : ∀ m ∈ X.data, m.length = n)
    (hrows : ∀ m ∈ X.data, ∀ r ∈ m, 1 ≤ r.length) :
    ∃ out, SpectrogramStatsTransformer.transform 1 false false X = some out
      ∧ out.rows.length = X.data.length
      ∧ ∀ i, i < X.data.length →
          out.rows.getD i [] =
            (X.data.getD i []).map npMin ++ (X.data.getD i []).map npMax ++
            (X.data.getD i []).map npMean ++ (X.data.getD i []).map npVar ++
            (X.data.getD i []).map npMedian
          ∧ ∀ j, j < 5 →
              pySlice (n * j) (n * (j + 1)) (out.rows.getD i []) =
                (X.data.getD i []).map (statsList.getD j npMin) := by
  clear hrows
  have hshape := shape1_eq X.data n hne hbins
  have hnb : statsNBins 1 false false X.data = some (n : ℤ) := by
    simp [statsNBins, hshape]
  refine ⟨⟨DType.float32, X.data.map (fun m =>
    [m.map npMin, m.map npMax, m.map npMean, m.map npVar,
      m.map npMedian].flatten)⟩, ?_, by simp, ?_⟩
  · unfold SpectrogramStatsTransformer.transform
    rw [hnb]
    dsimp only
    rw [if_neg (statsAlloc_nonneg (n : ℤ) (by omega))]
    rw [(by omega : ((n : ℤ)).toNat = n)]
    rw [seqOpt_map_some _ _ X.data
      (fun m hm => statsRow_no_delta m n (hbins m hm))]
    rfl
  · intro i hi
    have hmem : X.data.getD i [] ∈ X.data := getD_mem_of_lt _ i hi []
    have hrow : (X.data.map (fun m =>
        [m.map npMin, m.map npMax, m.map npMean, m.map npVar,
          m.map npMedian].flatten)).getD i [] =
        [(X.data.getD i []).map npMin, (X.data.getD i []).map npMax,
          (X.data.getD i []).map npMean, (X.data.getD i []).map npVar,
          (X.data.getD i []).map npMedian].flatten :=
      getD_map_of_lt _ _ i hi [] []
    constructor
    · rw [hrow]
      simp [List.flatten]
    · intro j hj
      rw [hrow]
      have hlen : ∀ B ∈ [(X.data.getD i []).map npMin,
          (X.data.getD i []).map npMax, (X.data.getD i []).map npMean,
          (X.data.getD i []).map npVar, (X.data.getD i []).map npMedian],
          B.length = n := by
        intro B hB
        have hm := hbins _ hmem
        simp only [List.mem_cons, List.not_mem_nil, or_false] at hB
        rcases hB with hB | hB | hB | hB | hB <;>
          (subst hB; rw [List.length_map]; exact hm)
      rw [pySlice_flatten_blocks n _ hlen j (by simpa using hj)]
      interval_cases j <;> rfl

unseal Rat.mul Rat.inv Rat.add Rat.sub in
/-- Witness for C3 on the batch `[[[1, 2], [3, 4]]]` (one segment, two
bins of two frames): the row is
`[min, min, max, max, mean, mean, var, var, median, median]` per bin. -/
theorem stats_ordering_five_blocks_witness :
    ∃ out, SpectrogramStatsTransformer.transform 1 false false
        ⟨DType.float64, [[[1, 2], [3, 4]]]⟩ = some out
      ∧ out.rows.getD 0 [] =
          [1, 3, 2, 4, 3/2, 7/2, 1/4, 1/4, 3/2, 7/2] := by
  obtain ⟨out, h1, h2, h3⟩ := stats_ordering_five_blocks
    ⟨DType.float64, [[[1, 2], [3, 4]]]⟩ 2 (by decide) (by decide)
    (by decide)
  refine ⟨out, h1, ?_⟩
  rw [(h3 0 (by decide)).1]
  decide

theorem statsBlock_delta (stat : List ℚ → ℚ) (Xi : Grid) (n w : ℕ)
    (h : Xi.length = n) (hw : n + (n - 1) = w) :
    statsBlock 1 true false w stat Xi =
      some (Xi.map stat ++ npDiff (Xi.map stat)) := by
  unfold statsBlock statAxis writeBlock
  have hlen : (Xi.map stat ++ npDiff (Xi.map stat)).length = w := by
    rw [List.length_append, List.length_map, npDiff_length, List.length_map, h]
    exact hw
  simp [hlen]

theorem statsBlock_delta_dd (stat : List ℚ → ℚ) (Xi : Grid) (n w : ℕ)
    (h : Xi.length = n) (hw : n + (n - 1) + (n - 1 - 1) = w) :
    statsBlock 1 true true w stat Xi =
      some ((Xi.map stat ++ npDiff (Xi.map stat)) ++
        npDiff (npDiff (Xi.map stat))) := by
  unfold statsBlock statAxis writeBlock
  have hlen : Xi.length + ((npDiff (Xi.map stat)).length +
      (npDiff (npDiff (Xi.map stat))).length) = w := by
    simp only [npDiff_length, List.length_map, h]
    omega
  simp [hlen]

theorem statsBlock_delta_dd_broadcast (stat : List ℚ → ℚ) (Xi : Grid)
    (h : Xi.length = 1) : statsBlock 1 true true 0 stat Xi = some [] := by
  rcases Xi with _ | ⟨r, rest⟩
  · simp at h
  · rcases rest with _ | ⟨r2, rest2⟩
    · simp [statsBlock, statAxis, writeBlock, npDiff]
    · simp at h

theorem statsRow_delta (Xi : Grid) (n w : ℕ) (h : Xi.length = n)
    (hw : n + (n - 1) = w) :
    statsRow 1 true false w Xi =
      some ((statsList.map
        (fun stat => Xi.map stat ++ npDiff (Xi.map stat))).flatten) := by
  unfold statsRow
  rw [seqOpt_map_some _ (fun stat => Xi.map stat ++ npDiff (Xi.map stat))
    statsList (fun stat _ => statsBlock_delta stat Xi n w h hw)]
  rfl

theorem statsRow_delta_dd (Xi : Grid) (n w : ℕ) (h : Xi.length = n)
    (hw : n + (n - 1) + (n - 1 - 1) = w) :
    statsRow 1 true true w Xi =
      some ((statsList.map
        (fun stat => (Xi.map stat ++ npDiff (Xi.map stat)) ++
          npDiff (npDiff (Xi.map stat)))).flatten) := by
  unfold statsRow
  rw [seqOpt_map_some _
    (fun stat => (Xi.map stat ++ npDiff (Xi.map stat)) ++
      npDiff (npDiff (Xi.map stat)))
    statsList (fun stat _ => statsBlock_delta_dd stat Xi n w h hw)]
  rfl

theorem statsRow_delta_dd_broadcast (Xi : Grid) (h : Xi.length = 1) :
    statsRow 1 true true 0 Xi = some [] := by
  unfold statsRow
  rw [seqOpt_map_some _ (fun _ => ([] : List ℚ)) statsList
    (fun stat _ => statsBlock_delta_dd_broadcast stat Xi h)]
  rfl

/-! ## C4: delta length law -/

/-- C4: for a base bin count `n >= 3` with `axis=1`, enabling `delta`
makes each statistic's block `2*n - 1` long and enabling both `delta` and
`delta_delta` makes it `3*n - 3` long (the delta-delta part has length
`n - 2`, one less than the delta part's `n - 1`), the total row width
being five times the effective length. -/
theorem delta_length_law (X : Batch3) (n : ℕ) (hn3 : 3 ≤ n)
    (hne : X.data ≠ [])
    (hbins : ∀ m ∈ X.data, m.length = n)
    (hrows : ∀ m ∈ X.data, ∀ r ∈ m, 1 ≤ r.length) :
    (∃ out1, SpectrogramStatsTransformer.transform 1 true false X = some out1
      ∧ ∀ row ∈ out1.rows, row.length = 5 * (2 * n - 1))
    ∧ (∃ out2, SpectrogramStatsTransformer.transform 1 true true X = some out2
      ∧ ∀ row ∈ out2.rows, row.length = 5 * (3 * n - 3))
    ∧ (∀ m ∈ X.data, ∀ stat ∈ statsList,
        (npDiff (statAxis 1 stat m)).length = n - 1
        ∧ (npDiff (npDiff (statAxis 1 stat m))).length = n - 2) := by
  clear hrows
  have hshape := shape1_eq X.data n hne hbins
  refine ⟨?_, ?_, ?_⟩
  · have hnb : statsNBins 1 true false X.data = some ((n : ℤ) + ((n : ℤ) - 1)) := by
      simp [statsNBins, hshape]
    refine ⟨⟨DType.float32, X.data.map (fun m => (statsList.map
      (fun stat => m.map stat ++ npDiff (m.map stat))).flatten)⟩, ?_, ?_⟩
    · unfold SpectrogramStatsTransformer.transform
      rw [hnb]
      dsimp only
      rw [if_neg (statsAlloc_nonneg _ (by omega))]
      rw [(by omega : ((n : ℤ) + ((n : ℤ) - 1)).toNat = n + (n - 1))]
      rw [seqOpt_map_some _ _ X.data
        (fun m hm => statsRow_delta m n (n + (n - 1)) (hbins m hm) rfl)]
      rfl
    · intro row hrow
      simp only [List.mem_map] at hrow
      obtain ⟨m, hm, hrow⟩ := hrow
      rw [hrow.symm]
      rw [length_flatten_const _ (n + (n - 1)) ?_]
      · rw [List.length_map, statsList_length_eq]
        omega
      · intro B hB
        simp only [List.mem_map] at hB
        obtain ⟨stat, _, hB⟩ := hB
        rw [hB.symm, List.length_append, List.length_map, npDiff_length,
          List.length_map, hbins m hm]
  · have hnb : statsNBins 1 true true X.data =
        some ((n : ℤ) + ((n : ℤ) - 1) + (((n : ℤ) - 1) - 1)) := by
      simp [statsNBins, hshape]
    refine ⟨⟨DType.float32, X.data.map (fun m => (statsList.map
      (fun stat => (m.map stat ++ npDiff (m.map stat)) ++
        npDiff (npDiff (m.map stat)))).flatten)⟩, ?_, ?_⟩
    · unfold SpectrogramStatsTransformer.transform
      rw [hnb]
      dsimp only
      rw [if_neg (statsAlloc_nonneg _ (by omega))]
      rw [(by omega : ((n : ℤ) + ((n : ℤ) - 1) + (((n : ℤ) - 1) - 1)).toNat
        = n + (n - 1) + (n - 1 - 1))]
      rw [seqOpt_map_some _ _ X.data
        (fun m hm => statsRow_delta_dd m n (n + (n - 1) + (n - 1 - 1))
          (hbins m hm) rfl)]
      rfl
    · intro row hrow
      simp only [List.mem_map] at hrow
      obtain ⟨m, hm, hrow⟩ := hrow
      rw [hrow.symm]
      rw [length_flatten_const _ (n + (n - 1) + (n - 1 - 1)) ?_]
      · rw [List.length_map, statsList_length_eq]
        omega
      · intro B hB
        simp only [List.mem_map] at hB
        obtain ⟨stat, _, hB⟩ := hB
        rw [hB.symm, List.length_append, List.length_append, List.length_map,
          npDiff_length, npDiff_length, List.length_map, npDiff_length,
          List.length_map, hbins m hm]
  · intro m hm stat _
    have hax : statAxis 1 stat m = m.map stat := by
      simp [statAxis]
    rw [hax, npDiff_length, npDiff_length, npDiff_length, List.length_map,
      hbins m hm]
    omega

/-- Witness for C4 at `n = 3` (batch `[[[1,2],[3,4],[5,6]]]`): row widths
`25 = 5 * (2*3 - 1)` and `30`... computed as `5 * (3*3 - 3) = 30`. -/
theorem delta_length_law_witness :
    (∃ out1, SpectrogramStatsTransformer.transform 1 true false
        ⟨DType.float64, [[[1, 2], [3, 4], [5, 6]]]⟩ = some out1
      ∧ ∀ row ∈ out1.rows, row.length = 5 * (2 * 3 - 1))
    ∧ (∃ out2, SpectrogramStatsTransformer.transform 1 true true
        ⟨DType.float64, [[[1, 2], [3, 4], [5, 6]]]⟩ = some out2
      ∧ ∀ row ∈ out2.rows, row.length = 5 * (3 * 3 - 3)) := by
  obtain ⟨h1, h2, h3⟩ := delta_length_law
    ⟨DType.float64, [[[1, 2], [3, 4], [5, 6]]]⟩ 3 (by decide) (by decide)
    (by decide) (by decide)
  exact ⟨h1, h2⟩

/-! ## C5 (corrected): which small bin counts actually raise -/

unseal Rat.mul Rat.inv Rat.add Rat.sub in
/-- C5 counterexample: a batch of shape `[1, 1, 2]` has a single bin
(`n_bins = 1`, fewer than the 2 the claim says `delta` needs), yet
`transform` with `delta=True` raises nothing and returns a complete
result: `np.diff` of a length-1 vector is just empty, so each statistic's
block is the bare statistic. -/
theorem delta_single_bin_succeeds_counterexample :
    SpectrogramStatsTransformer.transform 1 true false
        ⟨DType.float64, [[[1, 2]]]⟩
      = some ⟨DType.float32, [[1, 2, 3/2, 1/4, 3/2]]⟩ := by
  decide

/-- C5 (amended): with `delta=True` (either `delta_delta` setting) on an
`axis=1` batch, `transform` raises exactly when the bin count is `0` —
then the allocated width `n_stats * n_bins_effective` is negative, which
`np.empty` rejects. With exactly one bin the call succeeds: the
difference vectors are empty (`delta`), or the length-1 block broadcasts
into a width-0 row (`delta` + `delta_delta`). A raised error yields
`none`: no partial result. -/
theorem delta_error_iff_zero_bins (X : Batch3) (dd : Bool) (n d1 : ℕ)
    (hne : X.data ≠ [])
    (hbins : ∀ m ∈ X.data, m.length = n)
    (hrows : ∀ m ∈ X.data, ∀ r ∈ m, r.length = d1) (hd1 : 1 ≤ d1) :
    (SpectrogramStatsTransformer.transform 1 true dd X).isSome ↔ 1 ≤ n := by
  clear hrows hd1
  have hshape := shape1_eq X.data n hne hbins
  by_cases hn : n = 0
  · subst hn
    have hnone : SpectrogramStatsTransformer.transform 1 true dd X = none := by
      cases dd
      · have hnb : statsNBins 1 true false X.data =
            some (((0 : ℕ) : ℤ) + (((0 : ℕ) : ℤ) - 1)) := by
          simp [statsNBins, hshape]
        unfold SpectrogramStatsTransformer.transform
        rw [hnb]
        dsimp only
        rw [if_pos (by rw [statsList_length_eq]; omega)]
      · have hnb : statsNBins 1 true true X.data =
            some (((0 : ℕ) : ℤ) + (((0 : ℕ) : ℤ) - 1) +
              ((((0 : ℕ) : ℤ) - 1) - 1)) := by
          simp [statsNBins, hshape]
        unfold SpectrogramStatsTransformer.transform
        rw [hnb]
        dsimp only
        rw [if_pos (by rw [statsList_length_eq]; omega)]
    rw [hnone]
    simp
  · have hn1 : 1 ≤ n := by omega
    cases dd
    · have hnb : statsNBins 1 true false X.data =
          some ((n : ℤ) + ((n : ℤ) - 1)) := by
        simp [statsNBins, hshape]
      unfold SpectrogramStatsTransformer.transform
      rw [hnb]
      dsimp only
      rw [if_neg (statsAlloc_nonneg _ (by omega))]
      rw [(by omega : ((n : ℤ) + ((n : ℤ) - 1)).toNat = n + (n - 1))]
      rw [seqOpt_map_some _ _ X.data
        (fun m hm => statsRow_delta m n (n + (n - 1)) (hbins m hm) rfl)]
      simp [hn1]
    · by_cases h1 : n = 1
      · subst h1
        have hnb : statsNBins 1 true true X.data =
            some (((1 : ℕ) : ℤ) + (((1 : ℕ) : ℤ) - 1) +
              ((((1 : ℕ) : ℤ) - 1) - 1)) := by
          simp [statsNBins, hshape]
        unfold SpectrogramStatsTransformer.transform
        rw [hnb]
        dsimp only
        rw [if_neg (statsAlloc_nonneg _ (by omega))]
        rw [(by omega : (((1 : ℕ) : ℤ) + (((1 : ℕ) : ℤ) - 1) +
          ((((1 : ℕ) : ℤ) - 1) - 1)).toNat = 0)]
        rw [seqOpt_map_some _ (fun _ => ([] : List ℚ)) X.data
          (fun m hm => statsRow_delta_dd_broadcast m (hbins m hm))]
        simp
      · have hnb : statsNBins 1 true true X.data =
            some ((n : ℤ) + ((n : ℤ) - 1) + (((n : ℤ) - 1) - 1)) := by
          simp [statsNBins, hshape]
        unfold SpectrogramStatsTransformer.transform
        rw [hnb]
        dsimp only
        rw [if_neg (statsAlloc_nonneg _ (by omega))]
        rw [(by omega : ((n : ℤ) + ((n : ℤ) - 1) + (((n : ℤ) - 1) - 1)).toNat
          = n + (n - 1) + (n - 1 - 1))]
        rw [seqOpt_map_some _ _ X.data
          (fun m hm => statsRow_delta_dd m n (n + (n - 1) + (n - 1 - 1))
            (hbins m hm) rfl)]
        simp [hn1]

/-- Witness for the amended C5: a two-bin batch with both `delta` and
`delta_delta` succeeds. -/
theorem delta_error_iff_zero_bins_witness :
    (SpectrogramStatsTransformer.transform 1 true true
      ⟨DType.float64, [[[1, 2], [3, 4]]]⟩).isSome :=
  (delta_error_iff_zero_bins ⟨DType.float64, [[[1, 2], [3, 4]]]⟩ true 2 2
    (by decide) (by decide) (by decide) (by decide)).mpr (by decide)

/-! ## Helper lemmas for C6 and C7 -/

theorem entries_transform (cfg : SpecConfig) (log10f : ℚ → ℚ) (pcaf : PcaFn)
    (specf : SpecgramFn) (X : List (List ℚ)) :
    (SpectrogramTransformer.transform cfg log10f pcaf specf X).entries =
      ((SpectrogramTransformer.transformGrids cfg log10f pcaf specf X).map
        List.flatten).flatten := by
  cases hf : cfg.flatten <;>
    simp [SpectrogramTransformer.transform, hf, SpecOut.entries]

theorem processSeg_mem_subset (cfg : SpecConfig) (log10f : ℚ → ℚ)
    (pcaf : PcaFn) (s : Grid × List ℚ) (hlog : cfg.log = false)
    (hw : cfg.whiten = none) :
    ∀ row ∈ SpectrogramTransformer.processSeg cfg log10f pcaf s, row ∈ s.1 := by
  intro row hrow
  unfold SpectrogramTransformer.processSeg at hrow
  simp only [hlog, hw, Bool.false_eq_true, if_false] at hrow
  split_ifs at hrow <;>
    first
      | exact hrow
      | exact List.take_subset _ _ hrow
      | exact List.drop_subset _ _ hrow
      | exact List.take_subset _ _ (List.drop_subset _ _ hrow)

theorem processSeg_log_commutes (cfg : SpecConfig) (log10f : ℚ → ℚ)
    (pcaf : PcaFn) (s : Grid × List ℚ) (hw : cfg.whiten = none) :
    SpectrogramTransformer.processSeg {cfg with log := true} log10f pcaf s =
      (SpectrogramTransformer.processSeg {cfg with log := false} log10f pcaf
        s).map (List.map (fun x => 10 * log10f x)) := by
  unfold SpectrogramTransformer.processSeg
  dsimp only
  simp only [hw]
  split_ifs <;> simp_all [List.map_take, List.map_drop]

theorem transform_log_entries (cfg : SpecConfig) (log10f : ℚ → ℚ)
    (pcaf : PcaFn) (specf : SpecgramFn) (X : List (List ℚ))
    (hw : cfg.whiten = none) :
    (SpectrogramTransformer.transform {cfg with log := true} log10f pcaf specf
      X).entries =
      ((SpectrogramTransformer.transform {cfg with log := false} log10f pcaf
        specf X).entries).map (fun x => 10 * log10f x) := by
  rw [entries_transform, entries_transform]
  unfold SpectrogramTransformer.transformGrids
  dsimp only
  rw [List.map_flatten, List.map_map, List.map_map, List.map_map]
  congr 1
  apply List.map_congr_left
  intro Xi _
  simp only [Function.comp]
  rw [processSeg_log_commutes cfg log10f pcaf _ hw]
  rw [← List.map_flatten]

/-! ## C6: raw magnitudes are nonnegative; log output is 10*log10 of them -/

/-- C6: with whitening disabled (whitening replaces magnitudes by PCA
components and is an external primitive), for any clip/flatten setting:
with `log=False` every output value is a raw magnitude from the
spectrogram primitive (whose contract makes them nonnegative), and with
`log=True` the output equals `10*log10` of the `log=False` output
element-wise — here exactly, the claim's floating tolerance and its
zero-magnitude exception (where floating `log10` gives `-inf`) weakening
this to the nonzero positions. -/
theorem log_idempotence (cfg : SpecConfig) (log10f : ℚ → ℚ) (pcaf : PcaFn)
    (specf : SpecgramFn) (X : List (List ℚ))
    (hw : cfg.whiten = none)
    (hmag : ∀ Xi ∈ X,
      ∀ row ∈ (specf Xi cfg.NFFT cfg.Fs cfg.pad_to cfg.noverlap).1,
        ∀ x ∈ row, 0 ≤ x) :
    (cfg.log = false →
      ∀ x ∈ (SpectrogramTransformer.transform cfg log10f pcaf specf X).entries,
        0 ≤ x)
    ∧ (SpectrogramTransformer.transform {cfg with log := true} log10f pcaf
        specf X).entries.length =
      (SpectrogramTransformer.transform {cfg with log := false} log10f pcaf
        specf X).entries.length
    ∧ ∀ i, i < (SpectrogramTransformer.transform {cfg with log := false}
          log10f pcaf specf X).entries.length →
        (SpectrogramTransformer.transform {cfg with log := false} log10f pcaf
          specf X).entries.getD i 0 ≠ 0 →
        (SpectrogramTransformer.transform {cfg with log := true} log10f pcaf
          specf X).entries.getD i 0 =
          10 * log10f ((SpectrogramTransformer.transform {cfg with log := false}
            log10f pcaf specf X).entries.getD i 0) := by
  have hkey := transform_log_entries cfg log10f pcaf specf X hw
  refine ⟨?_, ?_, ?_⟩
  · intro hlog x hx
    rw [entries_transform] at hx
    rw [List.mem_flatten] at hx
    obtain ⟨fl, hfl, hxfl⟩ := hx
    rw [List.mem_map] at hfl
    obtain ⟨g, hg, hfl⟩ := hfl
    unfold SpectrogramTransformer.transformGrids at hg
    rw [List.mem_map] at hg
    obtain ⟨Xi, hXi, hg⟩ := hg
    rw [hfl.symm, hg.symm, List.mem_flatten] at hxfl
    obtain ⟨row, hrow, hxrow⟩ := hxfl
    have hrowmem := processSeg_mem_subset cfg log10f pcaf _ hlog hw row hrow
    exact hmag Xi hXi row hrowmem x hxrow
  · rw [hkey, List.length_map]
  · intro i hi hne
    rw [hkey]
    exact getD_map_of_lt _ _ i hi 0 0

unseal Rat.mul Rat.inv Rat.add Rat.sub in
/-- Witness for C6: a two-bin spectrogram of magnitudes
`[[4, 0], [9, 1]]`, no clipping, flattened output: the `log=False` output
is nonnegative, and at position 0 (magnitude `4`, nonzero) the
`log=True` output is `10 * log10f 4` — `40` with the identity standing in
for the opaque `log10f`. -/
theorem log_idempotence_witness :
    (∀ x ∈ (SpectrogramTransformer.transform
        ⟨2000, none, 256, 200, 1000, 0, DType.float32, none, false, true⟩
        (fun x => x) (fun _ g => g)
        (fun _ _ _ _ _ => ([[4, 0], [9, 1]], [0, 10])) [[5]]).entries, 0 ≤ x)
    ∧ (SpectrogramTransformer.transform
        ⟨2000, none, 256, 200, 1000, 0, DType.float32, none, true, true⟩
        (fun x => x) (fun _ g => g)
        (fun _ _ _ _ _ => ([[4, 0], [9, 1]], [0, 10])) [[5]]).entries.getD 0 0
      = 40 := by
  have h := log_idempotence
    ⟨2000, none, 256, 200, 1000, 0, DType.float32, none, false, true⟩
    (fun x => x) (fun _ g => g)
    (fun _ _ _ _ _ => ([[4, 0], [9, 1]], [0, 10])) [[5]]
    rfl (by decide)
  refine ⟨h.1 rfl, ?_⟩
  have h3 := h.2.2 0 (by decide) (by decide)
  exact h3.trans (by decide)

/-! ## C7: shape invariant -/

/-- C7: for a uniform-length batch (all segments the same length, so all
per-segment grids agree in shape as the first-segment buffer allocation
requires), the output's first dimension equals `X.shape[0]` — row `i`
comes from segment `i` — and with `flatten=True` row `i` is exactly as
long as the `bins * frames` of the grid the same configuration produces
with `flatten=False`. -/
theorem shape_invariant (cfg : SpecConfig) (log10f : ℚ → ℚ) (pcaf : PcaFn)
    (specf : SpecgramFn) (X : List (List ℚ)) (L : ℕ)
    (hseg : ∀ Xi ∈ X, Xi.length = L)
    (hrect : ∀ Xi ∈ X,
      ∀ row ∈ SpectrogramTransformer.processSeg cfg log10f pcaf
        (specf Xi cfg.NFFT cfg.Fs cfg.pad_to cfg.noverlap),
      row.length = gridCols (SpectrogramTransformer.processSeg cfg log10f pcaf
        (specf Xi cfg.NFFT cfg.Fs cfg.pad_to cfg.noverlap)))
    (hunif : ∀ Xi ∈ X, ∀ Xj ∈ X,
      (SpectrogramTransformer.processSeg cfg log10f pcaf
        (specf Xi cfg.NFFT cfg.Fs cfg.pad_to cfg.noverlap)).length =
        (SpectrogramTransformer.processSeg cfg log10f pcaf
          (specf Xj cfg.NFFT cfg.Fs cfg.pad_to cfg.noverlap)).length
      ∧ gridCols (SpectrogramTransformer.processSeg cfg log10f pcaf
          (specf Xi cfg.NFFT cfg.Fs cfg.pad_to cfg.noverlap)) =
        gridCols (SpectrogramTransformer.processSeg cfg log10f pcaf
          (specf Xj cfg.NFFT cfg.Fs cfg.pad_to cfg.noverlap))) :
    (SpectrogramTransformer.transform cfg log10f pcaf specf X).nrows = X.length
    ∧ (cfg.flatten = true →
      ∃ grids rows,
        SpectrogramTransformer.transform {cfg with flatten := false} log10f
            pcaf specf X = SpecOut.grid grids
        ∧ SpectrogramTransformer.transform cfg log10f pcaf specf X
            = SpecOut.flat rows
        ∧ ∀ i, i < X.length →
            (rows.getD i []).length =
              (grids.getD i []).length * gridCols (grids.getD i [])) := by
  clear hseg hunif
  constructor
  · cases hf : cfg.flatten <;>
      simp [SpectrogramTransformer.transform, hf, SpecOut.nrows,
        SpectrogramTransformer.transformGrids]
  · intro hf
    refine ⟨SpectrogramTransformer.transformGrids cfg log10f pcaf specf X,
      (SpectrogramTransformer.transformGrids cfg log10f pcaf specf X).map
        List.flatten, ?_, ?_, ?_⟩
    · unfold SpectrogramTransformer.transform
      rw [if_neg (by simp)]
      rfl
    · unfold SpectrogramTransformer.transform
      rw [if_pos hf]
    · intro i hi
      have hlen : i < (SpectrogramTransformer.transformGrids cfg log10f pcaf
          specf X).length := by
        unfold SpectrogramTransformer.transformGrids
        simpa using hi
      rw [List.getD_eq_getElem _ _ (by simpa using hlen), List.getElem_map]
      have hgi : (SpectrogramTransformer.transformGrids cfg log10f pcaf specf
          X).getD i [] =
          SpectrogramTransformer.processSeg cfg log10f pcaf
            (specf (X.getD i []) cfg.NFFT cfg.Fs cfg.pad_to cfg.noverlap) := by
        unfold SpectrogramTransformer.transformGrids
        rw [List.getD_eq_getElem _ _ (by simpa using hi), List.getElem_map,
          List.getD_eq_getElem _ _ hi]
      have hgi2 : (SpectrogramTransformer.transformGrids cfg log10f pcaf specf
          X)[i] =
          SpectrogramTransformer.processSeg cfg log10f pcaf
            (specf (X.getD i []) cfg.NFFT cfg.Fs cfg.pad_to cfg.noverlap) := by
        rw [← List.getD_eq_getElem _ [] hlen]
        exact hgi
      rw [hgi2, hgi]
      exact length_flatten_const _ _
        (hrect (X.getD i []) (getD_mem_of_lt X i hi []))

/-- Witness for C7: a one-segment batch whose processed grid is the
constant `2 x 3` grid `[[1,2,3],[4,5,6]]`: the flattened row has length
`6 = 2 * 3` and the batch keeps one row. -/
theorem shape_invariant_witness :
    (SpectrogramTransformer.transform
      ⟨2000, none, 256, 200, 1000, 0, DType.float32, none, false, true⟩
      (fun x => x) (fun _ g => g)
      (fun _ _ _ _ _ => ([[1, 2, 3], [4, 5, 6]], [0, 10])) [[7]]).nrows = 1
    ∧ ∃ grids rows,
        SpectrogramTransformer.transform
          { (⟨2000, none, 256, 200, 1000, 0, DType.float32, none, false,
            true⟩ : SpecConfig) with flatten := false }
          (fun x => x) (fun _ g => g)
          (fun _ _ _ _ _ => ([[1, 2, 3], [4, 5, 6]], [0, 10])) [[7]]
          = SpecOut.grid grids
        ∧ SpectrogramTransformer.transform
            ⟨2000, none, 256, 200, 1000, 0, DType.float32, none, false, true⟩
            (fun x => x) (fun _ g => g)
            (fun _ _ _ _ _ => ([[1, 2, 3], [4, 5, 6]], [0, 10])) [[7]]
            = SpecOut.flat rows
        ∧ ∀ i, i < 1 →
            (rows.getD i []).length =
              (grids.getD i []).length * gridCols (grids.getD i []) := by
  have h := shape_invariant
    ⟨2000, none, 256, 200, 1000, 0, DType.float32, none, false, true⟩
    (fun x => x) (fun _ g => g)
    (fun _ _ _ _ _ => ([[1, 2, 3], [4, 5, 6]], [0, 10])) [[7]] 1
    (by decide) (by decide) (by decide)
  exact ⟨h.1, h.2 rfl⟩
